import Mathlib

/-!
Verification development for the job-tracker storage core.

Shallow embedding of:
* the record model (`JobPosting`, `ReferralContact`) from `src/types/index.ts`,
* the field transformer (`dbRowToJobPosting`, `jobPostingToDbInsert`) from
  `src/utils/jobTransformers.ts`,
* the local backend (`StorageService.ts`: `getAllJobs`, `saveAllJobs`, `saveJob`,
  `getJob`, `updateJob`, `deleteJob`),
* the reducer update (`appReducer`, `UPDATE_JOB` branch, `AppContext.tsx`),
* the migration routine (`MigrationService.ts`: `migrateToCloud`, `clearLocalData`),
* the backend selector (`createStorageService`, `StorageServiceFactory.ts`).

Modelling conventions: ISO-8601 timestamps become `Nat` (milliseconds since
epoch; string comparison of equal-format ISO strings and `Date.getTime`
comparison agree), enumeration-valued fields are carried as `String` exactly as
they exist at the JavaScript runtime (the TypeScript union types are erased and
storage is unconstrained text), absent-or-null is `Option`, and the browser
`localStorage` becomes an explicit `LocalEnv` state threaded through the
operations.  `available` models the `isStorageAvailable()` probe and `writeOk`
models `localStorage.setItem` succeeding (quota); `data` is the parsed content
of the single storage key, `none` when the key is absent or the blob is
unparseable (the code treats both as an empty collection).
-/

/-- A referral lead attached to one job posting (`ReferralContact` in
`src/types/index.ts`).  `status` is carried as the raw stored string. -/
structure ReferralContact where
  id : String
  name : String
  contactMethod : String
  dateContacted : Option Nat
  status : String
deriving DecidableEq, Repr

/-- One tracked application (`JobPosting` in `src/types/index.ts`, in the
revision used by `src/utils/jobTransformers.ts`, which also carries
`applicationRequirements` and `applicationDeadline`). -/
structure JobPosting where
  id : String
  jobId : Option String
  jobTitle : String
  company : String
  location : String
  description : String
  linkedInUrl : Option String
  applicationLink : Option String
  applicationRequirements : Option String
  applicationDeadline : Option String
  referralMessage : String
  referralOutreachStatus : String
  notes : String
  status : String
  referralContacts : List ReferralContact
  dateAdded : Nat
  dateApplied : Option Nat
  lastUpdated : Nat
deriving DecidableEq, Repr

/-- A creation payload: `Omit<JobPosting, 'id' | 'dateAdded' | 'lastUpdated'>`,
the argument type of `saveJob` and `jobPostingToDbInsert`. -/
structure JobPostingData where
  jobId : Option String
  jobTitle : String
  company : String
  location : String
  description : String
  linkedInUrl : Option String
  applicationLink : Option String
  applicationRequirements : Option String
  applicationDeadline : Option String
  referralMessage : String
  referralOutreachStatus : String
  notes : String
  status : String
  referralContacts : List ReferralContact
  dateApplied : Option Nat
deriving DecidableEq, Repr

/-- Promote a creation payload to a full record, as `saveJob` does:
`{...jobData, id: generateUniqueId(), dateAdded: now, lastUpdated: now}`. -/
def jobOfData (p : JobPostingData) (id : String) (now : Nat) : JobPosting :=
  { id := id
    jobId := p.jobId
    jobTitle := p.jobTitle
    company := p.company
    location := p.location
    description := p.description
    linkedInUrl := p.linkedInUrl
    applicationLink := p.applicationLink
    applicationRequirements := p.applicationRequirements
    applicationDeadline := p.applicationDeadline
    referralMessage := p.referralMessage
    referralOutreachStatus := p.referralOutreachStatus
    notes := p.notes
    status := p.status
    referralContacts := p.referralContacts
    dateAdded := now
    dateApplied := p.dateApplied
    lastUpdated := now }

/-- `DbJobPostingRow` (`src/types/supabase.ts`, revision matching
`jobTransformers.ts`): the relational row as read back from storage.
`referral_contacts` may be missing or null, hence `Option`. -/
structure DbJobPostingRow where
  id : String
  user_id : String
  job_id : Option String
  job_title : String
  company : String
  location : String
  description : String
  linkedin_url : Option String
  application_link : Option String
  application_requirements : Option String
  application_deadline : Option String
  referral_message : String
  referral_outreach_status : String
  notes : String
  status : String
  referral_contacts : Option (List ReferralContact)
  date_added : Nat
  date_applied : Option Nat
  last_updated : Nat
deriving DecidableEq, Repr

/-- `DbJobPostingInsert`: the row shape used for insertion; `jobPostingToDbInsert`
always supplies every one of these fields. -/
structure DbJobPostingInsert where
  user_id : String
  job_id : Option String
  job_title : String
  company : String
  location : String
  description : String
  linkedin_url : Option String
  application_link : Option String
  application_requirements : Option String
  application_deadline : Option String
  referral_message : String
  referral_outreach_status : String
  notes : String
  status : String
  referral_contacts : List ReferralContact
  date_applied : Option Nat
deriving DecidableEq, Repr

/-- `isValidApplicationStatus` (`src/types/supabase.ts`):
`['Saved', 'Applied', 'Interview', 'Offer', 'Rejected'].includes(status)`. -/
def isValidApplicationStatus (status : String) : Bool :=
  ["Saved", "Applied", "Interview", "Offer", "Rejected"].contains status

/-- `isValidReferralOutreachStatus` (`src/types/supabase.ts`). -/
def isValidReferralOutreachStatus (status : String) : Bool :=
  ["Have to Find", "Found Contact", "Messaged", "Got Referral", "No Response",
    "Declined"].contains status

/-- The legal values of the `ReferralStatus` union in `src/types/index.ts`
('Not Contacted' | 'Contacted' | 'Referral Received' | 'No Response'); the
code base defines no runtime validator for it. -/
def isValidReferralStatus (status : String) : Bool :=
  ["Not Contacted", "Contacted", "Referral Received", "No Response"].contains status

/-- `dbRowToJobPosting` (`src/utils/jobTransformers.ts`): database row to
record, substituting defaults for illegal job-level enumeration values and
an empty list for a missing contact list. -/
def dbRowToJobPosting (row : DbJobPostingRow) : JobPosting :=
  let status := if isValidApplicationStatus row.status then row.status else "Saved"
  let referralOutreachStatus :=
    if isValidReferralOutreachStatus row.referral_outreach_status then
      row.referral_outreach_status
    else "Have to Find"
  { id := row.id
    jobId := row.job_id
    jobTitle := row.job_title
    company := row.company
    location := row.location
    description := row.description
    linkedInUrl := row.linkedin_url
    applicationLink := row.application_link
    applicationRequirements := row.application_requirements
    applicationDeadline := row.application_deadline
    referralMessage := row.referral_message
    referralOutreachStatus := referralOutreachStatus
    notes := row.notes
    status := status
    referralContacts := row.referral_contacts.getD []
    dateAdded := row.date_added
    dateApplied := row.date_applied
    lastUpdated := row.last_updated }

/-- `jobPostingToDbInsert` (`src/utils/jobTransformers.ts`): creation payload
plus owner identity to the insert row shape. -/
def jobPostingToDbInsert (job : JobPostingData) (userId : String) : DbJobPostingInsert :=
  { user_id := userId
    job_id := job.jobId
    job_title := job.jobTitle
    company := job.company
    location := job.location
    description := job.description
    linkedin_url := job.linkedInUrl
    application_link := job.applicationLink
    application_requirements := job.applicationRequirements
    application_deadline := job.applicationDeadline
    referral_message := job.referralMessage
    referral_outreach_status := job.referralOutreachStatus
    notes := job.notes
    status := job.status
    referral_contacts := job.referralContacts
    date_applied := job.dateApplied }

/-- The relational store's treatment of an accepted insert: the row carries
the insert's columns plus a generated identifier and fresh
`date_added`/`last_updated` timestamps (the columns `jobPostingToDbInsert`
omits, which the table generates). -/
def insertToRow (ins : DbJobPostingInsert) (genId : String) (now : Nat) : DbJobPostingRow :=
  { id := genId
    user_id := ins.user_id
    job_id := ins.job_id
    job_title := ins.job_title
    company := ins.company
    location := ins.location
    description := ins.description
    linkedin_url := ins.linkedin_url
    application_link := ins.application_link
    application_requirements := ins.application_requirements
    application_deadline := ins.application_deadline
    referral_message := ins.referral_message
    referral_outreach_status := ins.referral_outreach_status
    notes := ins.notes
    status := ins.status
    referral_contacts := some ins.referral_contacts
    date_added := now
    date_applied := ins.date_applied
    last_updated := now }

/-- `Partial<JobPosting>`: each field possibly absent.  `none` models a key
absent from the JavaScript object (so spreading it changes nothing); for the
nullable fields a present-but-null value is `some none`. -/
structure JobUpdate where
  id : Option String := none
  jobId : Option (Option String) := none
  jobTitle : Option String := none
  company : Option String := none
  location : Option String := none
  description : Option String := none
  linkedInUrl : Option (Option String) := none
  applicationLink : Option (Option String) := none
  applicationRequirements : Option (Option String) := none
  applicationDeadline : Option (Option String) := none
  referralMessage : Option String := none
  referralOutreachStatus : Option String := none
  notes : Option String := none
  status : Option String := none
  referralContacts : Option (List ReferralContact) := none
  dateAdded : Option Nat := none
  dateApplied : Option (Option Nat) := none
  lastUpdated : Option Nat := none
deriving DecidableEq, Repr

/-- The object spread `{...job, ...updates}`: every field present in the
update replaces the record's, every absent field keeps the record's value. -/
def mergeUpdate (job : JobPosting) (u : JobUpdate) : JobPosting :=
  { id := u.id.getD job.id
    jobId := u.jobId.getD job.jobId
    jobTitle := u.jobTitle.getD job.jobTitle
    company := u.company.getD job.company
    location := u.location.getD job.location
    description := u.description.getD job.description
    linkedInUrl := u.linkedInUrl.getD job.linkedInUrl
    applicationLink := u.applicationLink.getD job.applicationLink
    applicationRequirements := u.applicationRequirements.getD job.applicationRequirements
    applicationDeadline := u.applicationDeadline.getD job.applicationDeadline
    referralMessage := u.referralMessage.getD job.referralMessage
    referralOutreachStatus := u.referralOutreachStatus.getD job.referralOutreachStatus
    notes := u.notes.getD job.notes
    status := u.status.getD job.status
    referralContacts := u.referralContacts.getD job.referralContacts
    dateAdded := u.dateAdded.getD job.dateAdded
    dateApplied := u.dateApplied.getD job.dateApplied
    lastUpdated := u.lastUpdated.getD job.lastUpdated }

/-- The record built by `StorageService.updateJob`:
`{...jobs[index], ...updates, id: jobs[index].id, dateAdded: jobs[index].dateAdded,
lastUpdated: new Date().toISOString()}` — identifier and `dateAdded` forced
back to the stored values, `lastUpdated` stamped to the current time. -/
def applyStorageUpdate (old : JobPosting) (u : JobUpdate) (now : Nat) : JobPosting :=
  { mergeUpdate old u with
    id := old.id
    dateAdded := old.dateAdded
    lastUpdated := now }

/-- The per-record body of the `UPDATE_JOB` branch of `appReducer`
(`src/context/AppContext.tsx`): merge, stamp `lastUpdated`, and auto-set
`dateApplied` exactly when the update moves status to "Applied", the record
was not already "Applied", and `dateApplied` is unset (`!job.dateApplied`). -/
def applyReducerUpdate (job : JobPosting) (u : JobUpdate) (now : Nat) : JobPosting :=
  let updatedJob := { mergeUpdate job u with lastUpdated := now }
  if u.status == some "Applied" && !(job.status == "Applied") && job.dateApplied.isNone
  then { updatedJob with dateApplied := some now }
  else updatedJob

/-- The full `UPDATE_JOB` branch: map over the job list, transforming only the
record whose identifier matches. -/
def updateJobAction (jobs : List JobPosting) (id : String) (u : JobUpdate) (now : Nat) :
    List JobPosting :=
  jobs.map fun job => if job.id == id then applyReducerUpdate job u now else job

/-- A partial update touching only `status`, as dispatched by
`updateJobStatus(id, status)`. -/
def statusUpdate (s : String) : JobUpdate := { status := some s }

/-- Apply a sequence of status-only reducer updates, each with its own
current time. -/
def applyStatusUpdates (job : JobPosting) : List (String × Nat) → JobPosting
  | [] => job
  | (s, t) :: rest => applyStatusUpdates (applyReducerUpdate job (statusUpdate s) t) rest

/-- The browser `localStorage` as seen by `StorageService.ts`: `available`
is the `isStorageAvailable()` probe, `writeOk` is `setItem` succeeding on the
job blob (quota), and `data` is the parsed array under the single storage key
(`none` when the key is absent or the blob is unparseable — both read as an
empty collection). -/
structure LocalEnv where
  available : Bool
  writeOk : Bool
  data : Option (List JobPosting)
deriving DecidableEq, Repr

/-- The comparator `(a, b) => new Date(b.dateAdded).getTime() - new Date(a.dateAdded).getTime()`:
a stable sort by `dateAdded` descending (newest first).  `Array.prototype.sort`
is specified as a stable sort, and a stable sort's output is determined by the
comparator alone, so the structurally recursive stable `insertionSort` is an
exact model of it. -/
def sortByDateAddedDesc (jobs : List JobPosting) : List JobPosting :=
  List.insertionSort (fun a b => b.dateAdded ≤ a.dateAdded) jobs

/-- `getAllJobs` (`StorageService.ts`): empty when storage is unavailable,
absent, or unparseable; otherwise the stored collection sorted newest first. -/
def getAllJobs (env : LocalEnv) : List JobPosting :=
  if env.available then sortByDateAddedDesc (env.data.getD []) else []

/-- `saveAllJobs` (`StorageService.ts`): write the whole collection; `false`
without a write when storage is unavailable or the write throws. -/
def saveAllJobs (env : LocalEnv) (jobs : List JobPosting) : Bool × LocalEnv :=
  if env.available && env.writeOk then (true, { env with data := some jobs })
  else (false, env)

/-- `saveJob` (`StorageService.ts`): stamp a generated identifier and the
current time, append to the collection, persist (silently tolerating write
failure), return the new record.  The generated identifier and clock are
explicit parameters. -/
def saveJob (env : LocalEnv) (jobData : JobPostingData) (newId : String) (now : Nat) :
    JobPosting × LocalEnv :=
  let newJob := jobOfData jobData newId now
  let jobs := getAllJobs env
  (newJob, (saveAllJobs env (jobs ++ [newJob])).2)

/-- `getJob` (`StorageService.ts`): first stored record with the identifier,
or null. -/
def getJob (env : LocalEnv) (id : String) : Option JobPosting :=
  (getAllJobs env).find? fun job => job.id == id

/-- `updateJob` (`StorageService.ts`): find the record by identifier
(`findIndex`), merge the update with identifier and `dateAdded` forced,
stamp `lastUpdated`, persist, and return the updated record; null when the
identifier is not found. -/
def updateJob (env : LocalEnv) (id : String) (u : JobUpdate) (now : Nat) :
    Option JobPosting × LocalEnv :=
  let jobs := getAllJobs env
  let index := jobs.findIdx fun job => job.id == id
  if h : index < jobs.length then
    let updatedJob := applyStorageUpdate (jobs.get ⟨index, h⟩) u now
    (some updatedJob, (saveAllJobs env (jobs.set index updatedJob)).2)
  else (none, env)

/-- `deleteJob` (`StorageService.ts`): filter the record out; `false` when
the identifier was not found, otherwise the result of persisting the
filtered collection. -/
def deleteJob (env : LocalEnv) (id : String) : Bool × LocalEnv :=
  let jobs := getAllJobs env
  let filteredJobs := jobs.filter fun job => !(job.id == id)
  if filteredJobs.length == jobs.length then (false, env)
  else saveAllJobs env filteredJobs

/-- `MigrationResult` (`MigrationService.ts`). -/
structure MigrationResult where
  success : Bool
  migratedCount : Nat
  totalCount : Nat
  errors : List String
deriving DecidableEq, Repr

/-- The payload `migrateToCloud` builds for each local job: the record minus
identifier and timestamps, with `(job as any).applicationRequirements || null`
truthiness (an empty string also becomes null). -/
def stripJobForMigration (job : JobPosting) : JobPostingData :=
  let orNullIfFalsy : Option String → Option String
    | some s => if s = "" then none else some s
    | none => none
  { jobId := job.jobId
    jobTitle := job.jobTitle
    company := job.company
    location := job.location
    description := job.description
    linkedInUrl := job.linkedInUrl
    applicationLink := job.applicationLink
    applicationRequirements := orNullIfFalsy job.applicationRequirements
    applicationDeadline := orNullIfFalsy job.applicationDeadline
    referralMessage := job.referralMessage
    referralOutreachStatus := job.referralOutreachStatus
    notes := job.notes
    status := job.status
    referralContacts := job.referralContacts
    dateApplied := job.dateApplied }

/-- The per-record failure message pushed by `migrateToCloud`:
`Failed to migrate job "<title>" at <company>: <message>`. -/
def migrationErrorMessage (job : JobPosting) (msg : String) : String :=
  "Failed to migrate job \"" ++ job.jobTitle ++ "\" at " ++ job.company ++ ": " ++ msg

/-- The `for (const job of localJobs)` loop of `migrateToCloud`.  `outcome i
job` is the remote save's result for the i-th record: `none` on success,
`some msg` when it throws with that message.  Returns the migrated count, the
error list, and the insert rows accepted by the remote store, in order. -/
def migrateLoop (userId : String) (outcome : Nat → JobPosting → Option String) :
    Nat → List JobPosting → Nat × List String × List DbJobPostingInsert
  | _, [] => (0, [], [])
  | i, job :: rest =>
    let (c, es, rows) := migrateLoop userId outcome (i + 1) rest
    match outcome i job with
    | none => (c + 1, es, jobPostingToDbInsert (stripJobForMigration job) userId :: rows)
    | some m => (c, migrationErrorMessage job m :: es, rows)

/-- `migrateToCloud` (`MigrationService.ts`) with its effects made explicit:
reads the local collection, attempts each record against the remote store
(the `outcome` oracle), and returns the result object together with the
(untouched) local state and the accepted remote inserts. -/
def migrateToCloudRun (env : LocalEnv) (userId : String)
    (outcome : Nat → JobPosting → Option String) :
    MigrationResult × LocalEnv × List DbJobPostingInsert :=
  let localJobs := getAllJobs env
  if localJobs.length == 0 then
    ({ success := true, migratedCount := 0, totalCount := localJobs.length, errors := [] },
      env, [])
  else
    let (c, es, rows) := migrateLoop userId outcome 0 localJobs
    ({ success := c == localJobs.length, migratedCount := c,
       totalCount := localJobs.length, errors := es }, env, rows)

/-- `clearLocalData` (`MigrationService.ts`):
`localStorage.removeItem(STORAGE_KEY)` — the stored blob is removed. -/
def clearLocalData (env : LocalEnv) : LocalEnv :=
  { env with data := none }

/-- The two backend implementations returned by the selector. -/
inductive StorageBackend where
  | remote (userId : String)
  | localB
deriving DecidableEq, Repr

/-- `createStorageService` (`StorageServiceFactory.ts`): `if (userId)` — a
JavaScript truthiness test on `string | null`, so both `null` and the empty
string select the local backend. -/
def createStorageService (userId : Option String) : StorageBackend :=
  match userId with
  | some u => if u = "" then .localB else .remote u
  | none => .localB

/-- Fixture: a well-formed referral contact. -/
def contact0 : ReferralContact :=
  { id := "c-1", name := "Ann", contactMethod := "email", dateContacted := none,
    status := "Contacted" }

/-- Fixture: a stored contact whose referral status is not a legal
`ReferralStatus` value. -/
def contactBad : ReferralContact :=
  { id := "c-2", name := "Bob", contactMethod := "email", dateContacted := none,
    status := "Bogus" }

/-- Fixture: a well-typed creation payload. -/
def payload0 : JobPostingData :=
  { jobId := none, jobTitle := "Software Engineer", company := "Acme",
    location := "Remote", description := "desc", linkedInUrl := none,
    applicationLink := none, applicationRequirements := none,
    applicationDeadline := none, referralMessage := "msg",
    referralOutreachStatus := "Have to Find", notes := "", status := "Saved",
    referralContacts := [contact0], dateApplied := none }

/-- Fixture: a stored record (status "Saved", `dateApplied` unset). -/
def job0 : JobPosting := jobOfData payload0 "job-1" 1

/-- Fixture: a row whose stored application status is not a legal value and
whose contact list is null. -/
def row0 : DbJobPostingRow :=
  { id := "r-1", user_id := "user-1", job_id := none, job_title := "T",
    company := "C", location := "L", description := "D", linkedin_url := none,
    application_link := none, application_requirements := none,
    application_deadline := none, referral_message := "", 
    referral_outreach_status := "Messaged", notes := "", status := "BogusValue",
    referral_contacts := none, date_added := 3, date_applied := none,
    last_updated := 3 }

/-- Fixture: a row with legal job-level statuses whose contact list holds a
contact with an illegal referral status. -/
def rowBad : DbJobPostingRow :=
  { row0 with
    id := "r-2", status := "Saved",
    referral_outreach_status := "Have to Find",
    referral_contacts := some [contactBad] }

/-- Fixture: an unavailable local store. -/
def env0 : LocalEnv := { available := false, writeOk := true, data := none }

/-- Fixture: an available local store holding `job0`. -/
def env1 : LocalEnv := { available := true, writeOk := true, data := some [job0] }

/-- Fixture: a partial update naming `notes` that also tries to overwrite the
identifier and `dateAdded`. -/
def exampleUpdate : JobUpdate :=
  { notes := some "edited", id := some "evil", dateAdded := some 77 }

/-- A list's first match under `p` is `a` whenever `a` is in the list,
satisfies `p`, and is the only element that does. -/
theorem find?_eq_some_of_unique {α : Type} (p : α → Bool) (a : α) :
    ∀ l : List α, a ∈ l → p a = true → (∀ x ∈ l, p x = true → x = a) →
      l.find? p = some a := by
  intro l
  induction l with
  | nil => intro h; exact absurd h (List.not_mem_nil a)
  | cons x xs ih =>
    intro hmem hpa huniq
    cases hx : p x with
    | true =>
      have hxa : x = a := huniq x (List.mem_cons_self x xs) hx
      subst hxa
      simp [List.find?_cons, hx]
    | false =>
      have ha : a ∈ xs := by
        cases List.mem_cons.mp hmem with
        | inl h =>
          have hpx : p x = true := h ▸ hpa
          simp [hpx] at hx
        | inr h => exact h
      have := ih ha hpa (fun y hy hpy => huniq y (List.mem_cons_of_mem x hy) hpy)
      simp [List.find?_cons, hx, this]

/-- The first match of a list is the element at its `findIdx` index. -/
theorem find?_eq_get_findIdx {α : Type} (p : α → Bool) :
    ∀ (l : List α) (h : l.findIdx p < l.length),
      l.find? p = some (l.get ⟨l.findIdx p, h⟩) := by
  intro l
  induction l with
  | nil => intro h; simp at h
  | cons x xs ih =>
    intro h
    cases hx : p x with
    | true => simp [List.find?_cons, List.findIdx_cons, hx]
    | false =>
      have hlt : xs.findIdx p < xs.length := by
        have := h
        rw [List.findIdx_cons, hx] at this
        simpa using this
      have := ih hlt
      simp [List.find?_cons, List.findIdx_cons, hx, this]

/-- C1: converting a creation payload to an insert row, letting the store
complete it with a generated identifier and fresh timestamps, and converting
back reproduces the payload in every field, the identifier and the two
timestamps being exactly the freshly assigned ones.  The two validity
hypotheses are the constraints the TypeScript union types put on a payload. -/
theorem jobPosting_insert_roundtrip (p : JobPostingData) (u genId : String) (now : Nat)
    (hs : isValidApplicationStatus p.status = true)
    (hr : isValidReferralOutreachStatus p.referralOutreachStatus = true) :
    dbRowToJobPosting (insertToRow (jobPostingToDbInsert p u) genId now) =
      jobOfData p genId now := by
  simp [dbRowToJobPosting, insertToRow, jobPostingToDbInsert, jobOfData, hs, hr]

/-- Witness for C1 at a concrete payload, owner, identifier and time. -/
theorem jobPosting_insert_roundtrip_witness :
    dbRowToJobPosting (insertToRow (jobPostingToDbInsert payload0 "user-1") "gen-1" 42) =
      jobOfData payload0 "gen-1" 42 :=
  jobPosting_insert_roundtrip payload0 "user-1" "gen-1" 42 (by decide) (by decide)

/-- C6: `dbRowToJobPosting` keeps a legal stored application status and
substitutes "Saved" for an illegal one, keeps a legal outreach status and
substitutes "Have to Find" for an illegal one, and reads a missing contact
list as the empty list.  (It is a total function, so it never fails on an
illegal stored value.) -/
theorem dbRowToJobPosting_defaults (row : DbJobPostingRow) :
    (isValidApplicationStatus row.status = true →
      (dbRowToJobPosting row).status = row.status) ∧
    (isValidApplicationStatus row.status = false →
      (dbRowToJobPosting row).status = "Saved") ∧
    (isValidReferralOutreachStatus row.referral_outreach_status = true →
      (dbRowToJobPosting row).referralOutreachStatus = row.referral_outreach_status) ∧
    (isValidReferralOutreachStatus row.referral_outreach_status = false →
      (dbRowToJobPosting row).referralOutreachStatus = "Have to Find") ∧
    (row.referral_contacts = none → (dbRowToJobPosting row).referralContacts = []) := by
  refine ⟨?_, ?_, ?_, ?_, ?_⟩ <;> intro h <;> simp [dbRowToJobPosting, h]

/-- Witness for C6 at a concrete row with an illegal stored status, a legal
outreach status, and a null contact list. -/
theorem dbRowToJobPosting_defaults_witness :
    (dbRowToJobPosting row0).status = "Saved" ∧
    (dbRowToJobPosting row0).referralOutreachStatus = "Messaged" ∧
    (dbRowToJobPosting row0).referralContacts = [] :=
  ⟨(dbRowToJobPosting_defaults row0).2.1 (by decide),
   (dbRowToJobPosting_defaults row0).2.2.1 (by decide),
   (dbRowToJobPosting_defaults row0).2.2.2.2 rfl⟩

/-- Counterexample to C7: a row with legal job-level statuses whose contact
list holds a contact with referral status "Bogus" produces a record whose
contact still carries the illegal status — not every enumeration-valued field
of the produced record is a legal value of its enumeration. -/
theorem contact_status_not_validated_cex :
    ((dbRowToJobPosting rowBad).referralContacts.all
        fun c => isValidReferralStatus c.status) = false := by decide

/-- C7 as amended: only the two job-level enumerations of the produced record
are guaranteed legal; the contact list — referral statuses included — is
passed through from the row verbatim, unvalidated. -/
theorem dbRowToJobPosting_validates_job_level_only (row : DbJobPostingRow) :
    isValidApplicationStatus (dbRowToJobPosting row).status = true ∧
    isValidReferralOutreachStatus (dbRowToJobPosting row).referralOutreachStatus = true ∧
    (dbRowToJobPosting row).referralContacts = row.referral_contacts.getD [] := by
  refine ⟨?_, ?_, rfl⟩
  · cases h : isValidApplicationStatus row.status with
    | true => simp [dbRowToJobPosting, h]
    | false => simp [dbRowToJobPosting, h]; decide
  · cases h : isValidReferralOutreachStatus row.referral_outreach_status with
    | true => simp [dbRowToJobPosting, h]
    | false => simp [dbRowToJobPosting, h]; decide

/-- Characterisation of the migration loop: starting at index `i`, the
migrated count is the number of records whose save succeeded, the error list
holds exactly one formatted message per failed record in order, and the
accepted inserts are the transformed payloads of the successful records. -/
theorem migrateLoop_spec (userId : String) (outcome : Nat → JobPosting → Option String)
    (jobs : List JobPosting) : ∀ i : Nat,
    migrateLoop userId outcome i jobs =
      (((jobs.enumFrom i).filter fun q => (outcome q.1 q.2).isNone).length,
        (jobs.enumFrom i).filterMap (fun q =>
          (outcome q.1 q.2).map (migrationErrorMessage q.2)),
        (jobs.enumFrom i).filterMap fun q =>
          if (outcome q.1 q.2).isNone then
            some (jobPostingToDbInsert (stripJobForMigration q.2) userId)
          else none) := by
  induction jobs with
  | nil => intro i; rfl
  | cons job rest ih =>
    intro i
    cases h : outcome i job with
    | none =>
      simp [migrateLoop, ih (i + 1), h, List.enumFrom_cons, List.filter_cons,
        List.filterMap_cons]
    | some m =>
      simp [migrateLoop, ih (i + 1), h, List.enumFrom_cons, List.filter_cons,
        List.filterMap_cons]

/-- C2: for the `N` records readable from the local backend, `migrateToCloud`
reports `totalCount = N`, `migratedCount` equal to the number of records whose
remote save raised no error, `success` true exactly when every record
migrated, and one formatted error message (carrying the record's title and
company) per failed record — every record is attempted regardless of earlier
failures. -/
theorem migrateToCloud_counts (env : LocalEnv) (userId : String)
    (outcome : Nat → JobPosting → Option String) :
    ((migrateToCloudRun env userId outcome).1.totalCount = (getAllJobs env).length) ∧
    ((migrateToCloudRun env userId outcome).1.migratedCount =
      (((getAllJobs env).enum.filter fun q => (outcome q.1 q.2).isNone)).length) ∧
    ((migrateToCloudRun env userId outcome).1.success = true ↔
      (migrateToCloudRun env userId outcome).1.migratedCount =
        (migrateToCloudRun env userId outcome).1.totalCount) ∧
    ((migrateToCloudRun env userId outcome).1.errors =
      (getAllJobs env).enum.filterMap fun q =>
        (outcome q.1 q.2).map (migrationErrorMessage q.2)) := by
  cases hjobs : getAllJobs env with
  | nil => simp [migrateToCloudRun, hjobs]
  | cons job rest =>
    have hne : ((job :: rest).length == 0) = false := by simp
    have hloop := migrateLoop_spec userId outcome (job :: rest) 0
    simp only [migrateToCloudRun, hjobs, hne, Bool.false_eq_true, if_false, hloop,
      List.enum_eq_enumFrom]
    simp [beq_iff_eq]

/-- C3: a run of `migrateToCloud` leaves the local store exactly as it was —
every readable record is still readable unchanged — whatever the per-record
outcomes; only the separate `clearLocalData` removes the stored blob. -/
theorem migrateToCloud_preserves_localData (env : LocalEnv) (userId : String)
    (outcome : Nat → JobPosting → Option String) :
    ((migrateToCloudRun env userId outcome).2.1 = env) ∧
    (getAllJobs (migrateToCloudRun env userId outcome).2.1 = getAllJobs env) ∧
    ((clearLocalData env).data = none) ∧
    (getAllJobs (clearLocalData env) = []) := by
  have henv : (migrateToCloudRun env userId outcome).2.1 = env := by
    unfold migrateToCloudRun
    cases h : ((getAllJobs env).length == 0) <;> simp [h]
  refine ⟨henv, by rw [henv], rfl, ?_⟩
  unfold getAllJobs clearLocalData sortByDateAddedDesc
  cases h : env.available <;> simp [h]

/-- C4: under reducer update operations, `dateApplied` stays null while
status-only updates never set status to "Applied"; the first update moving a
non-"Applied" record to "Applied" sets it to the current time; and once set it
is never changed by any further sequence of status-only updates (in
particular by moving away from "Applied" and back). -/
theorem dateApplied_set_once :
    (∀ (job : JobPosting) (upds : List (String × Nat)), job.dateApplied = none →
      (∀ q ∈ upds, q.1 ≠ "Applied") →
      (applyStatusUpdates job upds).dateApplied = none) ∧
    (∀ (job : JobPosting) (now : Nat), job.dateApplied = none →
      job.status ≠ "Applied" →
      (applyReducerUpdate job (statusUpdate "Applied") now).dateApplied = some now) ∧
    (∀ (job : JobPosting) (d : Nat) (upds : List (String × Nat)),
      job.dateApplied = some d →
      (applyStatusUpdates job upds).dateApplied = some d) := by
  refine ⟨?_, ?_, ?_⟩
  · intro job upds
    induction upds generalizing job with
    | nil => intro h _; exact h
    | cons q rest ih =>
      intro h hall
      have hq : q.1 ≠ "Applied" := hall q (List.mem_cons_self q rest)
      have hstep :
          (applyReducerUpdate job (statusUpdate q.1) q.2).dateApplied = none := by
        simp [applyReducerUpdate, statusUpdate, mergeUpdate, hq, h]
      cases q with
      | mk s t =>
        exact ih (applyReducerUpdate job (statusUpdate s) t) hstep
          (fun r hr => hall r (List.mem_cons_of_mem _ hr))
  · intro job now h hstat
    simp [applyReducerUpdate, statusUpdate, mergeUpdate, h, hstat]
  · intro job d upds
    induction upds generalizing job with
    | nil => intro h; exact h
    | cons q rest ih =>
      intro h
      have hstep :
          (applyReducerUpdate job (statusUpdate q.1) q.2).dateApplied = some d := by
        simp [applyReducerUpdate, statusUpdate, mergeUpdate, h]
      cases q with
      | mk s t =>
        exact ih (applyReducerUpdate job (statusUpdate s) t) hstep

/-- Witness for C4: updating the concrete record `job0` (status "Saved",
`dateApplied` null) to "Applied" at time 99 stamps `dateApplied` to 99. -/
theorem dateApplied_set_once_witness :
    (applyReducerUpdate job0 (statusUpdate "Applied") 99).dateApplied = some 99 :=
  dateApplied_set_once.2.1 job0 99 rfl (by decide)

/-- C5: on a readable record, `updateJob` returns the merged record built by
`applyStorageUpdate`, which keeps the identifier and `dateAdded`
unconditionally (even against an update naming them), stamps `lastUpdated` to
the current time (hence never below the previous value under a monotone
clock), and leaves every field the update does not name at its pre-update
value; when no readable record has the identifier it returns null. -/
theorem updateJob_merge_frame (env : LocalEnv) (id : String) (u : JobUpdate) (now : Nat) :
    ((getAllJobs env).find? (fun j => j.id == id) = none →
      (updateJob env id u now).1 = none) ∧
    (∀ old, (getAllJobs env).find? (fun j => j.id == id) = some old →
      (updateJob env id u now).1 = some (applyStorageUpdate old u now) ∧
      (applyStorageUpdate old u now).id = old.id ∧
      (applyStorageUpdate old u now).dateAdded = old.dateAdded ∧
      (applyStorageUpdate old u now).lastUpdated = now ∧
      (old.lastUpdated ≤ now →
        old.lastUpdated ≤ (applyStorageUpdate old u now).lastUpdated) ∧
      (u.jobId = none → (applyStorageUpdate old u now).jobId = old.jobId) ∧
      (u.jobTitle = none → (applyStorageUpdate old u now).jobTitle = old.jobTitle) ∧
      (u.company = none → (applyStorageUpdate old u now).company = old.company) ∧
      (u.location = none → (applyStorageUpdate old u now).location = old.location) ∧
      (u.description = none →
        (applyStorageUpdate old u now).description = old.description) ∧
      (u.linkedInUrl = none →
        (applyStorageUpdate old u now).linkedInUrl = old.linkedInUrl) ∧
      (u.applicationLink = none →
        (applyStorageUpdate old u now).applicationLink = old.applicationLink) ∧
      (u.applicationRequirements = none →
        (applyStorageUpdate old u now).applicationRequirements =
          old.applicationRequirements) ∧
      (u.applicationDeadline = none →
        (applyStorageUpdate old u now).applicationDeadline =
          old.applicationDeadline) ∧
      (u.referralMessage = none →
        (applyStorageUpdate old u now).referralMessage = old.referralMessage) ∧
      (u.referralOutreachStatus = none →
        (applyStorageUpdate old u now).referralOutreachStatus =
          old.referralOutreachStatus) ∧
      (u.notes = none → (applyStorageUpdate old u now).notes = old.notes) ∧
      (u.status = none → (applyStorageUpdate old u now).status = old.status) ∧
      (u.referralContacts = none →
        (applyStorageUpdate old u now).referralContacts = old.referralContacts) ∧
      (u.dateApplied = none →
        (applyStorageUpdate old u now).dateApplied = old.dateApplied)) := by
  constructor
  · intro hnone
    have hnlt : ¬ ((getAllJobs env).findIdx (fun j => j.id == id) <
        (getAllJobs env).length) := by
      rw [List.findIdx_lt_length]
      rintro ⟨x, hx, hpx⟩
      exact (List.find?_eq_none.mp hnone x hx) hpx
    simp [updateJob, hnlt]
  · intro old hfind
    have hp := List.find?_some hfind
    have hex : ∃ x ∈ getAllJobs env, (fun j => j.id == id) x = true :=
      ⟨old, List.mem_of_find?_eq_some hfind, hp⟩
    have hlt : (getAllJobs env).findIdx (fun j => j.id == id) <
        (getAllJobs env).length := List.findIdx_lt_length.mpr hex
    have hget := find?_eq_get_findIdx (fun j => j.id == id) (getAllJobs env) hlt
    rw [hfind] at hget
    have hold : (getAllJobs env).get
        ⟨(getAllJobs env).findIdx (fun j => j.id == id), hlt⟩ = old :=
      (Option.some.injEq _ _).mp hget.symm
    have hold2 : (getAllJobs env)[(getAllJobs env).findIdx fun j => j.id == id] = old := by
      simpa using hold
    have hret : (updateJob env id u now).1 = some (applyStorageUpdate old u now) := by
      simp [updateJob, hlt, hold2]
    refine ⟨hret, rfl, rfl, rfl, ?_, ?_, ?_, ?_, ?_, ?_, ?_, ?_, ?_, ?_, ?_, ?_,
      ?_, ?_, ?_, ?_⟩ <;>
      intro h <;> simp [applyStorageUpdate, mergeUpdate, h]

/-- Witness for C5: on the concrete store `env1` holding `job0`, the update
`exampleUpdate` (naming `notes` and trying to overwrite the identifier and
`dateAdded`) returns the merged record, whose identifier, `dateAdded`, and
unnamed fields are unchanged and whose `lastUpdated` is the new time. -/
theorem updateJob_merge_frame_witness :
    (updateJob env1 "job-1" exampleUpdate 5).1 =
      some (applyStorageUpdate job0 exampleUpdate 5) ∧
    (applyStorageUpdate job0 exampleUpdate 5).id = job0.id ∧
    (applyStorageUpdate job0 exampleUpdate 5).dateAdded = job0.dateAdded ∧
    (applyStorageUpdate job0 exampleUpdate 5).lastUpdated = 5 ∧
    job0.lastUpdated ≤ (applyStorageUpdate job0 exampleUpdate 5).lastUpdated ∧
    (applyStorageUpdate job0 exampleUpdate 5).jobTitle = job0.jobTitle := by
  have h := (updateJob_merge_frame env1 "job-1" exampleUpdate 5).2 job0 (by decide)
  exact ⟨h.1, h.2.1, h.2.2.1, h.2.2.2.1, h.2.2.2.2.1 (by decide),
    h.2.2.2.2.2.2.1 rfl⟩

/-- Counterexample to C8: on an unavailable store, `saveJob` still returns the
new record but persistence silently fails, so `getJob` on the returned
identifier yields null rather than the saved record. -/
theorem saveJob_getJob_unavailable_cex :
    getJob (saveJob env0 payload0 "gen-1" 7).2 (saveJob env0 payload0 "gen-1" 7).1.id =
      none ∧
    (saveJob env0 payload0 "gen-1" 7).1 = jobOfData payload0 "gen-1" 7 :=
  ⟨rfl, rfl⟩

/-- C8 as amended: when the store is available, the write succeeds, and the
generated identifier collides with no readable record's identifier (what
`crypto.randomUUID()` provides), `getJob` on the identifier returned by
`saveJob` yields a record equal to the saved one in every field. -/
theorem saveJob_then_getJob (env : LocalEnv) (p : JobPostingData) (newId : String)
    (now : Nat) (hav : env.available = true) (hw : env.writeOk = true)
    (hfresh : ∀ j ∈ getAllJobs env, j.id ≠ newId) :
    getJob (saveJob env p newId now).2 (saveJob env p newId now).1.id =
      some (saveJob env p newId now).1 := by
  have hsave : (saveJob env p newId now).2 =
      { env with data := some (getAllJobs env ++ [jobOfData p newId now]) } := by
    simp [saveJob, saveAllJobs, hav, hw]
  have hfst : (saveJob env p newId now).1 = jobOfData p newId now := rfl
  have hget : ∀ (L : List JobPosting) (nid : String),
      getJob { env with data := some L } nid =
        (sortByDateAddedDesc L).find? (fun j => j.id == nid) := by
    intro L nid
    unfold getJob getAllJobs
    simp [hav]
  rw [hfst, hsave, hget]
  unfold sortByDateAddedDesc
  apply find?_eq_some_of_unique
  · exact (List.mem_insertionSort _).mpr (List.mem_append_right _ (List.mem_singleton.mpr rfl))
  · exact beq_self_eq_true _
  · intro x hx hpx
    have hmem : x ∈ getAllJobs env ++ [jobOfData p newId now] :=
      (List.mem_insertionSort _).mp hx
    cases List.mem_append.mp hmem with
    | inl h =>
      have hxid : x.id = newId := eq_of_beq hpx
      exact absurd hxid (hfresh x h)
    | inr h => exact List.mem_singleton.mp h

/-- Witness for the amended C8 on the concrete available store `env1`. -/
theorem saveJob_then_getJob_witness :
    getJob (saveJob env1 payload0 "job-2" 9).2 (saveJob env1 payload0 "job-2" 9).1.id =
      some (saveJob env1 payload0 "job-2" 9).1 :=
  saveJob_then_getJob env1 payload0 "job-2" 9 rfl rfl (by decide)

/-- Counterexample to C9: the empty string is a non-null owner identity, yet
`createStorageService` returns the local backend for it (`if (userId)` is a
truthiness test, and the empty string is falsy). -/
theorem createStorageService_empty_userId_cex :
    createStorageService (some "") = StorageBackend.localB ∧
    (some "" : Option String) ≠ none ∧
    StorageBackend.localB ≠ StorageBackend.remote "" := by decide

/-- C9 as amended: the selector returns a remote backend bound to the owner
identity exactly for non-null, non-empty identities, and the local backend
for null and for the empty string. -/
theorem createStorageService_selects :
    (∀ u : String, u ≠ "" → createStorageService (some u) = StorageBackend.remote u) ∧
    createStorageService none = StorageBackend.localB ∧
    createStorageService (some "") = StorageBackend.localB := by
  refine ⟨fun u h => ?_, rfl, rfl⟩
  simp [createStorageService, h]

/-- Witness for the amended C9 at a concrete non-empty identity. -/
theorem createStorageService_selects_witness :
    createStorageService (some "user-42") = StorageBackend.remote "user-42" :=
  createStorageService_selects.1 "user-42" (by decide)

/-- C10: `deleteJob` returns true exactly when a record with the identifier
is present in the readable collection AND the store is available AND the
write of the remaining collection succeeds; otherwise — not found, store
unavailable, or write failure — it returns false, so a false return does not
distinguish "not found" from "found but not durably removed". -/
theorem deleteJob_true_iff (env : LocalEnv) (id : String) :
    (deleteJob env id).1 = true ↔
      ((getAllJobs env).any (fun j => j.id == id) = true ∧
        env.available = true ∧ env.writeOk = true) := by
  unfold deleteJob
  by_cases hany : (getAllJobs env).any (fun j => j.id == id) = true
  · obtain ⟨j, hj, hpj⟩ := List.any_eq_true.mp hany
    have hne : (((getAllJobs env).filter fun job => !(job.id == id)).length ==
        (getAllJobs env).length) = false := by
      rw [beq_eq_false_iff_ne]
      intro hlen
      have hsub : (getAllJobs env).filter (fun job => !(job.id == id)) =
          getAllJobs env := (List.filter_sublist _).eq_of_length hlen
      have hjf : j ∈ (getAllJobs env).filter fun job => !(job.id == id) := by
        rw [hsub]
        exact hj
      have := List.of_mem_filter hjf
      simp [hpj] at this
    simp only [hne, Bool.false_eq_true, if_false]
    unfold saveAllJobs
    cases ha : env.available <;> cases hw : env.writeOk <;> simp [ha, hw, hany]
  · have hall : ∀ job ∈ getAllJobs env, (job.id == id) = false := by
      intro job hjob
      cases h : (job.id == id) with
      | false => rfl
      | true => exact absurd (List.any_eq_true.mpr ⟨job, hjob, h⟩) hany
    have hfilter : (getAllJobs env).filter (fun job => !(job.id == id)) =
        getAllJobs env := by
      apply List.filter_eq_self.mpr
      intro a ha
      simp [hall a ha]
    simp [hfilter, hany]
